import Mathlib

/-!
# neterra-tv-proxy: session lifecycle and playlist rendering

A shallow embedding of `neterra/neterra.go` and of the `/playlist.m3u8` handler
of `main.go`.

Conventions of the embedding:

* a Go `string` holding text is a Lean `String`; where the code works on the
  bytes of a string (`url.QueryEscape`) the bytes are its UTF-8 encoding, as a
  `List Nat` of values below 256;
* `time.Time` is an `Int` count of nanoseconds since the zero `time.Time`,
  `Before` is `<` and `Add` is `+`;
* everything the outside world decides (clock readings, what the upstream
  answers) is an explicit argument of the function that consumes it;
* a Go run-time panic is the `Except.error` side of the result.
-/

set_option linter.dupNamespace false

namespace Neterra

/-! ## Constants -/

def LoginUrl : String := "http://www.neterra.tv/user/login_page"
def LoginParamUsername : String := "login_username"
def LoginParamPassword : String := "login_password"
def LoginParamLogin : String := "login"
def LoginParamLoginType : String := "login_type"
def LoginValueLogin : String := "1"
def LoginValueLoginType : String := "1"
def LoginSuccessCriteria : String := "var LOGGED = '1'"
def LoginTimeoutMs : Int := 28800000
def GetStreamUrl : String := "http://www.neterra.tv/content/get_stream"
def GetStreamParamIssue : String := "issue_id"
def GetStreamParamQuality : String := "quality"
def GetStreamParamType : String := "type"
def GetStreamValueQuality : String := "0"
def GetStreamValueType : String := "live"
def GetLiveUrl : String := "http://www.neterra.tv/content/live"

/-! ## Data shapes -/

/-- Channel represents information for the particular live stream meta. -/
structure Channel where
  IssueID : String
  Name : String
  TvgID : String
  TvgName : String
  Group : String
  Logo : String
  deriving DecidableEq, Repr

/-- Channels is the list of channel definitions read from the data file. -/
structure Channels where
  Channels : List Channel
  deriving DecidableEq, Repr

/-- ProgramEntries is one programme entry of a live channel. -/
structure ProgramEntries where
  EpgMediaID : String
  EpgProdName : String
  StartDatetime : String
  Description : String
  EpgStart : String
  EpgEnd : String
  EpgDuration : String
  EpgPosition : String
  EpgProgress : String
  StartTimeUnix : String
  EndTimeUnix : String
  deriving DecidableEq, Repr

/-- LiveChannel is one streamed channel variant as sent by the upstream. -/
structure LiveChannel where
  ProductID : String
  ProductMedia : String
  ProductGroupID : String
  ProductFileTag : String
  ProductName : String
  IssueName : String
  MediaName : String
  MediaFileTag : String
  IssueID : String
  IssueProdID : String
  IssueURL : String
  Dvr : String
  DvrDuration : String
  HlsURL : String
  Program : List ProgramEntries
  deriving DecidableEq, Repr

/-- LiveChannels is the catalog: a sequence of groups of variants. -/
structure LiveChannels where
  LiveChannels : List (List LiveChannel)
  deriving DecidableEq, Repr

/-- The zero value of `ProgramEntries`. -/
def ProgramEntries.zero : ProgramEntries :=
  ⟨"", "", "", "", "", "", "", "", "", "", ""⟩

/-- The zero value of `LiveChannel`. -/
def LiveChannel.zero : LiveChannel :=
  ⟨"", "", "", "", "", "", "", "", "", "", "", "", "", "", []⟩

/-- The struct `playLink` of a stream-resolution answer. -/
structure playLink where
  Link : String
  deriving DecidableEq, Repr

/-! ## Bytes of a string and `net/url` escaping -/

/-- UTF-8 encoding of one code point, as Go stores it in a `string`. -/
def utf8EncodeRune (c : Char) : List Nat :=
  let n := c.toNat
  if n < 0x80 then [n]
  else if n < 0x800 then [0xC0 + n / 64, 0x80 + n % 64]
  else if n < 0x10000 then [0xE0 + n / 4096, 0x80 + n / 64 % 64, 0x80 + n % 64]
  else [0xF0 + n / 262144, 0x80 + n / 4096 % 64, 0x80 + n / 64 % 64, 0x80 + n % 64]

/-- The bytes of a Go string holding the text `s`. -/
def goBytes (s : String) : List Nat :=
  s.data.flatMap utf8EncodeRune

/-- The test `shouldEscape(c, encodeQueryComponent)` of `net/url`: everything but the
unreserved characters (letters, digits, `-`, `_`, `.`, `~`) is escaped. -/
def shouldEscape (c : Nat) : Bool :=
  if (97 ≤ c ∧ c ≤ 122) ∨ (65 ≤ c ∧ c ≤ 90) ∨ (48 ≤ c ∧ c ≤ 57) then false
  else if c = 45 ∨ c = 95 ∨ c = 46 ∨ c = 126 then false
  else true

/-- The table `upperhex` of `net/url`. -/
def upperhex (i : Nat) : Char :=
  ['0', '1', '2', '3', '4', '5', '6', '7', '8', '9', 'A', 'B', 'C', 'D', 'E', 'F'].getD i '0'

/-- The output loop of `escape(s, encodeQueryComponent)` of `net/url`, byte by
byte: a space becomes `+`, a byte to escape becomes `%XX`, any other byte is
copied. -/
def escape : List Nat → List Char
  | [] => []
  | c :: rest =>
    if c = 32 then '+' :: escape rest
    else if shouldEscape c then '%' :: upperhex (c / 16) :: upperhex (c % 16) :: escape rest
    else Char.ofNat c :: escape rest

/-- The function `url.QueryEscape`: the escaped form of the bytes of `s`. -/
def QueryEscape (s : String) : String :=
  String.mk (escape (goBytes s))

/-- The test `ishex` of `net/url`. -/
def ishex (c : Nat) : Bool :=
  (48 ≤ c ∧ c ≤ 57) ∨ (97 ≤ c ∧ c ≤ 102) ∨ (65 ≤ c ∧ c ≤ 70)

/-- The function `unhex` of `net/url`. -/
def unhex (c : Nat) : Nat :=
  if 48 ≤ c ∧ c ≤ 57 then c - 48
  else if 97 ≤ c ∧ c ≤ 102 then c - 97 + 10
  else if 65 ≤ c ∧ c ≤ 70 then c - 65 + 10
  else 0

/-- The function `unescape(s, encodeQueryComponent)` of `net/url` on the bytes of `s`:
`none` is the `EscapeError` raised for a `%` not followed by two hex digits. -/
def unescape : List Nat → Option (List Nat)
  | [] => some []
  | c :: rest =>
    if c = 37 then
      match rest with
      | h :: l :: rest2 =>
        if ishex h ∧ ishex l then (unescape rest2).map (fun t => (unhex h * 16 + unhex l) :: t)
        else none
      | _ => none
    else if c = 43 then (unescape rest).map (fun t => 32 :: t)
    else (unescape rest).map (fun t => c :: t)

/-- The function `url.QueryUnescape` applied to an ASCII text, returning the decoded bytes. -/
def QueryUnescape (s : String) : Option (List Nat) :=
  unescape (s.data.map Char.toNat)

/-- The type `url.Values` restricted to what the code uses: every key holds one value. -/
abbrev Values := List (String × String)

/-- The method `Values.Set`: replaces the value of `key`, or adds the key. -/
def Values.Set (v : Values) (key value : String) : Values :=
  if v.any (fun kv => kv.1 == key) then
    v.map (fun kv => if kv.1 == key then (key, value) else kv)
  else v ++ [(key, value)]

/-- The method `Values.Encode`: `key=value` pairs, both escaped, sorted by key, joined by `&`. -/
def Values.Encode (v : Values) : String :=
  "&".intercalate
    ((v.insertionSort (fun a b => ¬ b.1 < a.1)).map
      (fun kv => QueryEscape kv.1 ++ "=" ++ QueryEscape kv.2))

/-! ## Errors, HTTP and the clock -/

/-- The errors the client can hand to its caller. -/
inductive GoError where
  | transport (msg : String)
  | read (msg : String)
  | jsonSyntax
  | jsonType (target : String)
  | errorf (msg : String)
  deriving DecidableEq, Repr

/-- The text `err.Error()` contributes to a wrapping message. -/
def GoError.Error : GoError → String
  | .transport msg => msg
  | .read msg => msg
  | .jsonSyntax => "invalid character looking for beginning of value"
  | .jsonType target => "json: cannot unmarshal value into Go value of type " ++ target
  | .errorf msg => msg

/-- A run-time panic of the Go program. -/
inductive Panic where
  | indexOutOfRange (index len : Nat)
  deriving DecidableEq, Repr

/-- A JSON syntax tree (numbers keep their literal). -/
inductive Json where
  | null
  | bool (b : Bool)
  | num (lit : String)
  | str (s : String)
  | arr (xs : List Json)
  | obj (kvs : List (String × Json))

/-- A response body as read by `ioutil.ReadAll`: its text and, when the text is
syntactically valid JSON, its syntax tree (`none` when `encoding/json` rejects
the syntax). -/
structure Body where
  text : String
  json : Option Json

/-- What one `httpClient.Do` followed by `ioutil.ReadAll` meets: a transport
error, or a response whose `Set-Cookie` values reach the jar and whose body
either fails to be read or is read in full. -/
inductive HttpOutcome where
  | doError (msg : String)
  | response (setCookies : List String) (body : Except String Body)

/-- An outgoing request. -/
structure HttpRequest where
  method : String
  url : String
  header : List (String × String)
  body : String
  deriving DecidableEq, Repr

/-- A cookie jar: the cookies the upstream has set in it. -/
structure Jar where
  cookies : List String
  deriving DecidableEq, Repr

/-- The type `http.Client`: its jar, and the requests it has sent so far (oldest first). -/
structure HttpClient where
  Jar : Jar
  sent : List HttpRequest
  deriving DecidableEq, Repr

/-- The function `cookiejar.New`: an empty jar; the library never reports an error. -/
def cookiejarNew : Except GoError Jar :=
  .ok ⟨[]⟩

/-- The function `http.NewRequest` for a valid method and a parseable URL, which is what the
client passes (constants): the request, never an error. -/
def httpNewRequest (method url body : String) : Except GoError HttpRequest :=
  .ok ⟨method, url, [], body⟩

/-- The method `req.Header.Add`. -/
def HttpRequest.HeaderAdd (req : HttpRequest) (key value : String) : HttpRequest :=
  { req with header := req.header ++ [(key, value)] }

/-- The call `httpClient.Do(req)` then `ioutil.ReadAll(resp.Body)`: the request is sent,
the cookies of the response are kept in the jar, and the body or the error is
returned. -/
def HttpClient.Do (hc : HttpClient) (req : HttpRequest) (out : HttpOutcome) :
    HttpClient × Except GoError Body :=
  match out with
  | .doError msg => ({ hc with sent := hc.sent ++ [req] }, .error (.transport msg))
  | .response setCookies body =>
    ({ Jar := ⟨hc.Jar.cookies ++ setCookies⟩, sent := hc.sent ++ [req] },
      match body with
      | .error msg => .error (.read msg)
      | .ok b => .ok b)

/-- The type `time.Time`, in nanoseconds since the zero `time.Time`. -/
abbrev Time := Int

/-- The constant `time.Millisecond`, a `time.Duration` in nanoseconds. -/
def Millisecond : Int := 1000000

/-- The method `t.Before(u)`. -/
def Time.Before (t u : Time) : Bool := decide (t < u)

/-- The method `t.Add(d)`. -/
def Time.Add (t : Time) (d : Int) : Time := t + d

/-- The function `strings.Contains`: whether `substr` occurs in `s`. -/
def stringsContains (s substr : String) : Bool :=
  s.data.tails.any (fun t => substr.data.isPrefixOf t)

/-! ## The client -/

/-- Client represents the Neterra client object. -/
structure Client where
  username : String
  password : String
  httpClient : HttpClient
  lastLogin : Time
  loggedIn : Bool
  tvChan : String → Option Channel
  host : String
  port : String

/-- NewClient creates a new client: the registry is keyed by issue id, a later
entry replacing an earlier one with the same id. -/
def NewClient (client : HttpClient) (username password host port : String)
    (tvChannels : Channels) : Client :=
  let tvHashedChannels : String → Option Channel :=
    tvChannels.Channels.foldl
      (fun m ch => fun key => if key = ch.IssueID then some ch else m key)
      (fun _ => none)
  { username := username, password := password, httpClient := client, lastLogin := 0,
    loggedIn := false, tvChan := tvHashedChannels, host := host, port := port }

/-- The method `login`: installs a new jar, posts the credentials and looks for the success
marker in the answer. -/
def login (n : Client) (out : HttpOutcome) : Client × Bool × Option GoError :=
  match cookiejarNew with
  | .error err => (n, false, some err)
  | .ok jar =>
    let n := { n with httpClient := { n.httpClient with Jar := jar } }
    let form : Values := []
    let form := form.Set LoginParamUsername n.username
    let form := form.Set LoginParamPassword n.password
    let form := form.Set LoginParamLogin LoginValueLogin
    let form := form.Set LoginParamLoginType LoginValueLoginType
    match httpNewRequest "POST" LoginUrl form.Encode with
    | .error err => (n, false, some err)
    | .ok req =>
      let req := req.HeaderAdd "Content-Type" "application/x-www-form-urlencoded"
      match n.httpClient.Do req out with
      | (hc, .error err) => ({ n with httpClient := hc }, false, some err)
      | (hc, .ok data) =>
        ({ n with httpClient := hc }, stringsContains data.text LoginSuccessCriteria, none)

/-- What the world supplies to one `checkLogin`: the clock reading of the
expiry test, the upstream's answer to a login request, and the clock reading
stored as `lastLogin` after a successful login. -/
structure LoginEnv where
  nowCheck : Time
  response : HttpOutcome
  nowStamp : Time

/-- The method `checkLogin`: logs in when the session was never authenticated or
its last login is older than `LoginTimeoutMs`, and records a successful login. -/
def checkLogin (n : Client) (env : LoginEnv) : Client :=
  if !n.loggedIn ||
      Time.Before n.lastLogin (Time.Add env.nowCheck (-(Millisecond * LoginTimeoutMs))) then
    match login n env.response with
    | (n, res, err) =>
      if err = none && res then
        { n with loggedIn := true, lastLogin := env.nowStamp }
      else n
  else n

/-! ## `encoding/json` decoding into the client's structs

`json.Unmarshal` first checks the syntax of the whole input, then decodes the
syntax tree into the target. A value of the wrong type for its target is
reported as an error once decoding is over; the caller discards the target in
that case, so the decoders below stop at the first such value. -/

/-- The smallest member of the case-folding class of a code point, for the
classes that contain an ASCII letter (`s`, `S`, U+017F and `k`, `K`, U+212A
besides the plain case pairs); other code points are left alone, which is
indifferent when one side of the comparison is an ASCII field name. -/
def foldRune (c : Char) : Char :=
  if 97 ≤ c.toNat ∧ c.toNat ≤ 122 then Char.ofNat (c.toNat - 32)
  else if c.toNat = 0x17F then 'S'
  else if c.toNat = 0x212A then 'K'
  else c

/-- Whether the object key `key` selects the struct field tagged `name`: an
exact match, or a match up to case folding. -/
def fieldMatches (key name : String) : Bool :=
  key == name || key.data.map foldRune == name.data.map foldRune

/-- Decoding into a `string` holding `cur`: a JSON string replaces it, `null`
leaves it, anything else is a type error. -/
def decodeString (cur : String) : Json → Except GoError String
  | .str s => .ok s
  | .null => .ok cur
  | _ => .error (.jsonType "string")

/-- Decoding the members of an object one after the other into a struct. -/
def decodeFields {σ : Type} (set : σ → String → Json → Except GoError σ) :
    σ → List (String × Json) → Except GoError σ
  | cur, [] => .ok cur
  | cur, kv :: rest =>
    match set cur kv.1 kv.2 with
    | .error err => .error err
    | .ok next => decodeFields set next rest

/-- Decoding the items of an array, each into a new element. -/
def decodeElems {α : Type} (elem : Json → Except GoError α) :
    List Json → Except GoError (List α)
  | [] => .ok []
  | x :: xs =>
    match elem x with
    | .error err => .error err
    | .ok a =>
      match decodeElems elem xs with
      | .error err => .error err
      | .ok rest => .ok (a :: rest)

/-- Decoding into a slice: `null` gives the nil slice, an array gives its
decoded items, anything else is a type error. -/
def decodeSlice {α : Type} (target : String) (elem : Json → Except GoError α) :
    Json → Except GoError (List α)
  | .null => .ok []
  | .arr xs => decodeElems elem xs
  | _ => .error (.jsonType target)

/-- One member of a JSON object decoded into a `ProgramEntries`. -/
def ProgramEntries.setField (p : ProgramEntries) (key : String) (v : Json) :
    Except GoError ProgramEntries :=
  if fieldMatches key "epg_media_id" then
    (decodeString p.EpgMediaID v).map (fun s => { p with EpgMediaID := s })
  else if fieldMatches key "epg_prod_name" then
    (decodeString p.EpgProdName v).map (fun s => { p with EpgProdName := s })
  else if fieldMatches key "start_datetime" then
    (decodeString p.StartDatetime v).map (fun s => { p with StartDatetime := s })
  else if fieldMatches key "description" then
    (decodeString p.Description v).map (fun s => { p with Description := s })
  else if fieldMatches key "epg_start" then
    (decodeString p.EpgStart v).map (fun s => { p with EpgStart := s })
  else if fieldMatches key "epg_end" then
    (decodeString p.EpgEnd v).map (fun s => { p with EpgEnd := s })
  else if fieldMatches key "epg_duration" then
    (decodeString p.EpgDuration v).map (fun s => { p with EpgDuration := s })
  else if fieldMatches key "epg_position" then
    (decodeString p.EpgPosition v).map (fun s => { p with EpgPosition := s })
  else if fieldMatches key "epg_progress" then
    (decodeString p.EpgProgress v).map (fun s => { p with EpgProgress := s })
  else if fieldMatches key "start_time_unix" then
    (decodeString p.StartTimeUnix v).map (fun s => { p with StartTimeUnix := s })
  else if fieldMatches key "end_time_unix" then
    (decodeString p.EndTimeUnix v).map (fun s => { p with EndTimeUnix := s })
  else .ok p

/-- Decoding into a `ProgramEntries` holding `cur`. -/
def decodeProgramEntries (cur : ProgramEntries) : Json → Except GoError ProgramEntries
  | .null => .ok cur
  | .obj kvs => decodeFields ProgramEntries.setField cur kvs
  | _ => .error (.jsonType "neterra.ProgramEntries")

/-- One member of a JSON object decoded into a `LiveChannel`. -/
def LiveChannel.setField (c : LiveChannel) (key : String) (v : Json) :
    Except GoError LiveChannel :=
  if fieldMatches key "product_id" then
    (decodeString c.ProductID v).map (fun s => { c with ProductID := s })
  else if fieldMatches key "product_media" then
    (decodeString c.ProductMedia v).map (fun s => { c with ProductMedia := s })
  else if fieldMatches key "product_group_id" then
    (decodeString c.ProductGroupID v).map (fun s => { c with ProductGroupID := s })
  else if fieldMatches key "product_file_tag" then
    (decodeString c.ProductFileTag v).map (fun s => { c with ProductFileTag := s })
  else if fieldMatches key "product_name" then
    (decodeString c.ProductName v).map (fun s => { c with ProductName := s })
  else if fieldMatches key "issues_name" then
    (decodeString c.IssueName v).map (fun s => { c with IssueName := s })
  else if fieldMatches key "media_name" then
    (decodeString c.MediaName v).map (fun s => { c with MediaName := s })
  else if fieldMatches key "media_file_tag" then
    (decodeString c.MediaFileTag v).map (fun s => { c with MediaFileTag := s })
  else if fieldMatches key "issues_id" then
    (decodeString c.IssueID v).map (fun s => { c with IssueID := s })
  else if fieldMatches key "issues_prod_id" then
    (decodeString c.IssueProdID v).map (fun s => { c with IssueProdID := s })
  else if fieldMatches key "issues_url" then
    (decodeString c.IssueURL v).map (fun s => { c with IssueURL := s })
  else if fieldMatches key "dvr" then
    (decodeString c.Dvr v).map (fun s => { c with Dvr := s })
  else if fieldMatches key "dvr_duration" then
    (decodeString c.DvrDuration v).map (fun s => { c with DvrDuration := s })
  else if fieldMatches key "hls_url" then
    (decodeString c.HlsURL v).map (fun s => { c with HlsURL := s })
  else if fieldMatches key "program" then
    (decodeSlice "[]neterra.ProgramEntries" (decodeProgramEntries ProgramEntries.zero) v).map
      (fun ps => { c with Program := ps })
  else .ok c

/-- Decoding into a `LiveChannel` holding `cur`. -/
def decodeLiveChannel (cur : LiveChannel) : Json → Except GoError LiveChannel
  | .null => .ok cur
  | .obj kvs => decodeFields LiveChannel.setField cur kvs
  | _ => .error (.jsonType "neterra.LiveChannel")

/-- One member of a JSON object decoded into a `LiveChannels`. -/
def LiveChannels.setField (m : Neterra.LiveChannels) (key : String) (v : Json) :
    Except GoError Neterra.LiveChannels :=
  if fieldMatches key "tv_choice_result" then
    (decodeSlice "[][]neterra.LiveChannel"
      (decodeSlice "[]neterra.LiveChannel" (decodeLiveChannel LiveChannel.zero)) v).map
      (fun gs => { m with LiveChannels := gs })
  else .ok m

/-- Decoding into a `LiveChannels` holding `cur`. -/
def decodeLiveChannels (cur : LiveChannels) : Json → Except GoError LiveChannels
  | .null => .ok cur
  | .obj kvs => decodeFields LiveChannels.setField cur kvs
  | _ => .error (.jsonType "neterra.LiveChannels")

/-- One member of a JSON object decoded into a `playLink`. -/
def playLink.setField (m : playLink) (key : String) (v : Json) : Except GoError playLink :=
  if fieldMatches key "play_link" then
    (decodeString m.Link v).map (fun s => { m with Link := s })
  else .ok m

/-- Decoding into a `playLink` holding `cur`. -/
def decodePlayLink (cur : playLink) : Json → Except GoError playLink
  | .null => .ok cur
  | .obj kvs => decodeFields playLink.setField cur kvs
  | _ => .error (.jsonType "neterra.playLink")

/-- The call `json.Unmarshal(data, &m)`: the syntax check, then the decoding into `m`. -/
def jsonUnmarshal {σ : Type} (decode : σ → Json → Except GoError σ) (data : Body) (m : σ) :
    Except GoError σ :=
  match data.json with
  | none => .error .jsonSyntax
  | some j => decode m j

/-! ## Playlist and stream resolution -/

/-- The loop of `generatePlaylist`, `buf` being the text built so far. Taking
element 0 of a group without variants is an index-out-of-range panic. -/
def generatePlaylist.loop (n : Client) : String → List (List LiveChannel) → Except Panic String
  | buf, [] => .ok buf
  | buf, grp :: rest =>
    match grp[0]? with
    | none => .error (.indexOutOfRange 0 grp.length)
    | some lch =>
      let chanID := lch.IssueID
      let (chanName, tvgID, tvgName, group, logo) :=
        match n.tvChan chanID with
        | some val => (val.Name, val.TvgID, val.TvgName, val.Group, val.Logo)
        | none => (lch.IssueName, "", "", "", "")
      let encodedChanName := QueryEscape chanName
      let buf := buf ++ "#EXTINF:-1 tvg-id=\"" ++ tvgID ++ "\" tvg-name=\"" ++ tvgName ++
        "\" tvg-logo=\"" ++ logo ++ "\" group-title=\"" ++ group ++ "\"," ++ chanName ++
        "\nhttp://" ++ n.host ++ ":" ++ n.port ++ "/playlist.m3u8?ch=" ++ chanID ++
        "&name=" ++ encodedChanName ++ "\n"
      generatePlaylist.loop n buf rest

/-- The method `generatePlaylist`: the text and the (always nil) error, or a panic. -/
def generatePlaylist (n : Client) (lschns : LiveChannels) :
    Except Panic (String × Option GoError) :=
  match generatePlaylist.loop n "#EXTM3U\n" lschns.LiveChannels with
  | .error p => .error p
  | .ok buf => .ok (buf, none)

/-- GetM3U8 fetches the M3U8 list. -/
def GetM3U8 (n : Client) (env : LoginEnv) (out : HttpOutcome) :
    Client × Except Panic (String × Option GoError) :=
  let n := checkLogin n env
  match httpNewRequest "GET" GetLiveUrl "" with
  | .error err => (n, .ok ("", some err))
  | .ok req =>
    match n.httpClient.Do req out with
    | (hc, .error err) => ({ n with httpClient := hc }, .ok ("", some err))
    | (hc, .ok data) =>
      let n := { n with httpClient := hc }
      match jsonUnmarshal decodeLiveChannels data ⟨[]⟩ with
      | .error err =>
        (n, .ok ("", some (.errorf
          ("Error unmarshaling " ++ data.text ++ " to LiveChannels " ++ err.Error))))
      | .ok m => (n, generatePlaylist n m)

/-- GetStream returns stream URL. -/
def GetStream (n : Client) (issueID : String) (env : LoginEnv) (out : HttpOutcome) :
    Client × String × Option GoError :=
  let n := checkLogin n env
  let form : Values := []
  let form := form.Set GetStreamParamIssue issueID
  let form := form.Set GetStreamParamQuality GetStreamValueQuality
  let form := form.Set GetStreamParamType GetStreamValueType
  match httpNewRequest "POST" GetStreamUrl form.Encode with
  | .error err => (n, "", some err)
  | .ok req =>
    let req := req.HeaderAdd "Content-Type" "application/x-www-form-urlencoded"
    match n.httpClient.Do req out with
    | (hc, .error err) => ({ n with httpClient := hc }, "", some err)
    | (hc, .ok data) =>
      let n := { n with httpClient := hc }
      match jsonUnmarshal decodePlayLink data ⟨""⟩ with
      | .error err => (n, "", some err)
      | .ok m => (n, m.Link, none)

/-! ## The `/playlist.m3u8` handler of `main.go` -/

/-- What a handler has done to its `http.ResponseWriter`: the headers it set,
the `http.Redirect` it issued (destination and status), the bytes it wrote. -/
structure ResponseWriter where
  header : List (String × String)
  redirect : Option (String × Nat)
  written : String
  deriving DecidableEq, Repr

/-- The constant `http.StatusMovedPermanently`. -/
def StatusMovedPermanently : Nat := 301

/-- The handler of `/playlist.m3u8`; `ch` and `chName` are the values of the
query parameters `ch` and `name` (`none` when the parameter is absent). -/
def playlistHandler (nClient : Client) (ch chName : Option (List String))
    (env : LoginEnv) (out : HttpOutcome) : Client × Except Panic ResponseWriter :=
  let w : ResponseWriter := ⟨[], none, ""⟩
  match ch with
  | some (ch0 :: _) =>
    if chName.isNone || (chName.getD []).length < 1 then (nClient, .ok w)
    else
      let w := { w with header := w.header ++ [("Content-Type", "application/x-mpegURL")] }
      match GetStream nClient ch0 env out with
      | (nClient, _, some _) => (nClient, .ok w)
      | (nClient, url, none) =>
        (nClient, .ok { w with redirect := some (url, StatusMovedPermanently) })
  | _ =>
    let w := { w with header := w.header ++ [("Content-Type", "application/x-mpegURL")] }
    let w := { w with header := w.header ++
      [("Content-Disposion", "filename=\"playlist.m3u8\"")] }
    match GetM3U8 nClient env out with
    | (nClient, .error p) => (nClient, .error p)
    | (nClient, .ok (res, _)) => (nClient, .ok { w with written := w.written ++ res })

/-! ## Vocabulary of the statements -/

/-- The name shown for a channel: the registry's when the issue id is
registered, the upstream's otherwise. -/
def displayName (n : Client) (lch : LiveChannel) : String :=
  match n.tvChan lch.IssueID with
  | some val => val.Name
  | none => lch.IssueName

/-- The metadata line of a channel, without its line end. -/
def extinfLine (n : Client) (lch : LiveChannel) : String :=
  match n.tvChan lch.IssueID with
  | some val =>
    "#EXTINF:-1 tvg-id=\"" ++ val.TvgID ++ "\" tvg-name=\"" ++ val.TvgName ++
      "\" tvg-logo=\"" ++ val.Logo ++ "\" group-title=\"" ++ val.Group ++ "\"," ++ val.Name
  | none =>
    "#EXTINF:-1 tvg-id=\"\" tvg-name=\"\" tvg-logo=\"\" group-title=\"\"," ++ lch.IssueName

/-- The URL line of a channel, without its line end. -/
def urlLine (n : Client) (lch : LiveChannel) : String :=
  "http://" ++ n.host ++ ":" ++ n.port ++ "/playlist.m3u8?ch=" ++ lch.IssueID ++
    "&name=" ++ QueryEscape (displayName n lch)

/-- The metadata+URL pair of a channel. -/
def playlistEntry (n : Client) (lch : LiveChannel) : String :=
  extinfLine n lch ++ "\n" ++ urlLine n lch ++ "\n"


/-- Whether the upstream's answer to a login request makes `login` report
success: the body was read and contains the success marker. -/
def loginSucceeds (out : HttpOutcome) : Bool :=
  match out with
  | .response _ (.ok b) => stringsContains b.text LoginSuccessCriteria
  | _ => false

/-- The cookies an answer of the upstream sets. -/
def responseCookies (out : HttpOutcome) : List String :=
  match out with
  | .doError _ => []
  | .response setCookies _ => setCookies

/-- A client as `main` builds it, before any request. -/
def freshClient : Client :=
  NewClient ⟨⟨[]⟩, []⟩ "user" "secret" "localhost" "8080" ⟨[]⟩

/-- An answer of the upstream to a login request that carries the success marker. -/
def loginOk : HttpOutcome :=
  .response ["sid=1"] (.ok ⟨"<script>var LOGGED = '1';</script>", none⟩)

/-- An answer of the upstream to a login request that lacks the success marker. -/
def loginRefused : HttpOutcome :=
  .response [] (.ok ⟨"<script>var LOGGED = '0';</script>", none⟩)

/-- A client that logged in successfully at time 0 and holds the cookie of that session. -/
def loggedInAtZero : Client :=
  checkLogin freshClient ⟨0, loginOk, 0⟩

/-- The characters `url.QueryEscape` copies unchanged: ASCII letters, digits,
`-`, `_`, `.` and `~`. -/
def isUnreservedChar (c : Char) : Bool :=
  c.isAlphanum || c == '-' || c == '_' || c == '.' || c == '~'

/-- A JSON value the decoder takes for one channel variant: an object, or `null`. -/
def isChannelItem : Json → Bool
  | .obj _ => true
  | .null => true
  | _ => false

/-- A JSON value the decoder takes for one group: an array of channel items, or `null`. -/
def isGroupItem : Json → Bool
  | .arr ys => ys.all isChannelItem
  | .null => true
  | _ => false

/-- A JSON value the decoder takes for `tv_choice_result`: an array of group
items (an array of arrays of channel objects), or `null`. -/
def isGroupsShape : Json → Bool
  | .arr xs => xs.all isGroupItem
  | .null => true
  | _ => false

/-- Whether a JSON value is an object or `null`, the two values the decoder
takes for a struct. -/
def isStructValue : Json → Bool
  | .obj _ => true
  | .null => true
  | _ => false

/-! ## Playlist rendering -/

theorem foldl_append_start (xs : List String) (a : String) :
    List.foldl (fun r s => r ++ s) a xs = a ++ List.foldl (fun r s => r ++ s) "" xs := by
  induction xs generalizing a with
  | nil => simp
  | cons x xs ih => rw [List.foldl_cons, ih, List.foldl_cons, ih ("" ++ x)]; simp [String.append_assoc]

theorem join_cons (x : String) (xs : List String) :
    String.join (x :: xs) = x ++ String.join xs := by
  simp only [String.join, List.foldl_cons]
  rw [foldl_append_start]; simp

theorem join_append (xs ys : List String) :
    String.join (xs ++ ys) = String.join xs ++ String.join ys := by
  induction xs with
  | nil => simp [String.join]
  | cons x xs ih => simp [join_cons, ih, String.append_assoc]

theorem loop_cons (n : Client) (buf : String) (lch : LiveChannel) (rest : List LiveChannel)
    (groups : List (List LiveChannel)) :
    generatePlaylist.loop n buf ((lch :: rest) :: groups) =
      generatePlaylist.loop n (buf ++ playlistEntry n lch) groups := by
  have hnl : ("\nhttp://" : String) = "\n" ++ "http://" := rfl
  have hq : ("#EXTINF:-1 tvg-id=\"\" tvg-name=\"\" tvg-logo=\"\" group-title=\"\"," : String) =
      "#EXTINF:-1 tvg-id=\"" ++ "" ++ "\" tvg-name=\"" ++ "" ++ "\" tvg-logo=\"" ++ "" ++
        "\" group-title=\"" ++ "" ++ "\"," := rfl
  cases h : n.tvChan lch.IssueID <;>
    simp only [generatePlaylist.loop, playlistEntry, extinfLine, urlLine, displayName, h,
      List.getElem?_cons_zero, hnl, hq, String.append_assoc]

theorem loop_nil_group (n : Client) (buf : String) (groups : List (List LiveChannel)) :
    generatePlaylist.loop n buf ([] :: groups) = .error (.indexOutOfRange 0 0) := by
  simp [generatePlaylist.loop]

theorem loop_nonempty (n : Client) (groups : List (List LiveChannel))
    (h : ∀ g ∈ groups, g ≠ []) (buf : String) :
    generatePlaylist.loop n buf groups =
      .ok (buf ++ String.join ((groups.filterMap List.head?).map (playlistEntry n))) := by
  induction groups generalizing buf with
  | nil => simp [generatePlaylist.loop, String.join]
  | cons g gs ih =>
    cases g with
    | nil => exact absurd rfl (h [] (List.mem_cons_self _ _))
    | cons lch rest =>
      rw [loop_cons, ih (fun g hg => h g (List.mem_cons_of_mem _ hg))]
      simp [join_cons, String.append_assoc]


/-- C4: for every catalog whose groups are all non-empty, the output of
`generatePlaylist` is the header line followed by exactly one metadata+URL pair
per group (an `#EXTINF:-1` line, then the `http://host:port/playlist.m3u8` line),
the i-th pair being the one of the first variant of the i-th group; the empty
catalog renders exactly the header line. -/
theorem generatePlaylist_header_then_pairs (n : Client) (groups : List (List LiveChannel))
    (h : ∀ g ∈ groups, g ≠ []) :
    ∃ firsts : List LiveChannel,
      firsts.length = groups.length ∧
      groups.map List.head? = firsts.map some ∧
      generatePlaylist n ⟨groups⟩ =
        .ok ("#EXTM3U\n" ++
          String.join (firsts.map (fun lch => extinfLine n lch ++ "\n" ++ urlLine n lch ++ "\n")),
          none) ∧
      generatePlaylist n ⟨[]⟩ = .ok ("#EXTM3U\n", none) := by
  refine ⟨groups.filterMap List.head?, ?_, ?_, ?_, ?_⟩
  · induction groups with
    | nil => rfl
    | cons g gs ih =>
      cases g with
      | nil => exact absurd rfl (h [] (List.mem_cons_self _ _))
      | cons lch rest => simpa using ih (fun g hg => h g (List.mem_cons_of_mem _ hg))
  · induction groups with
    | nil => rfl
    | cons g gs ih =>
      cases g with
      | nil => exact absurd rfl (h [] (List.mem_cons_self _ _))
      | cons lch rest => simpa using ih (fun g hg => h g (List.mem_cons_of_mem _ hg))
  · simp only [generatePlaylist, loop_nonempty n groups h]
    rfl
  · rfl

/-- C4 (witness): a catalog of two groups. -/
theorem generatePlaylist_header_then_pairs_witness :
    ∃ firsts : List LiveChannel,
      firsts.length =
        ([[{ LiveChannel.zero with IssueID := "7", IssueName := "Up" }],
          [{ LiveChannel.zero with IssueID := "8", IssueName := "Other" }]] :
            List (List LiveChannel)).length ∧
      ([[{ LiveChannel.zero with IssueID := "7", IssueName := "Up" }],
          [{ LiveChannel.zero with IssueID := "8", IssueName := "Other" }]] :
            List (List LiveChannel)).map List.head? = firsts.map some ∧
      generatePlaylist (NewClient ⟨⟨[]⟩, []⟩ "u" "p" "h" "80" ⟨[]⟩)
        ⟨[[{ LiveChannel.zero with IssueID := "7", IssueName := "Up" }],
          [{ LiveChannel.zero with IssueID := "8", IssueName := "Other" }]]⟩ =
        .ok ("#EXTM3U\n" ++
          String.join (firsts.map (fun lch =>
            extinfLine (NewClient ⟨⟨[]⟩, []⟩ "u" "p" "h" "80" ⟨[]⟩) lch ++ "\n" ++
              urlLine (NewClient ⟨⟨[]⟩, []⟩ "u" "p" "h" "80" ⟨[]⟩) lch ++ "\n")),
          none) ∧
      generatePlaylist (NewClient ⟨⟨[]⟩, []⟩ "u" "p" "h" "80" ⟨[]⟩) ⟨[]⟩ =
        .ok ("#EXTM3U\n", none) :=
  generatePlaylist_header_then_pairs (NewClient ⟨⟨[]⟩, []⟩ "u" "p" "h" "80" ⟨[]⟩)
    [[{ LiveChannel.zero with IssueID := "7", IssueName := "Up" }],
      [{ LiveChannel.zero with IssueID := "8", IssueName := "Other" }]]
    (by simp)

/-- C1 (evaluation at the failing input): a catalog holding one group without
variants makes `generatePlaylist` panic on the index 0, so does every catalog
that holds such a group, and `GetM3U8` reaches the panic with the body
`{"tv_choice_result":[[]]}`. -/
theorem generatePlaylist_panics_on_empty_group (n : Client) (env : LoginEnv)
    (cookies : List String) (text : String) :
    generatePlaylist n ⟨[[]]⟩ = .error (.indexOutOfRange 0 0) ∧
    (∀ pre post : List (List LiveChannel),
      generatePlaylist n ⟨pre ++ [] :: post⟩ = .error (.indexOutOfRange 0 0)) ∧
    (GetM3U8 n env (.response cookies
      (.ok ⟨text, some (.obj [("tv_choice_result", .arr [.arr []])])⟩))).2 =
        .error (.indexOutOfRange 0 0) := by
  refine ⟨rfl, ?_, ?_⟩
  · intro pre post
    have hloop : ∀ buf, generatePlaylist.loop n buf (pre ++ [] :: post) =
        .error (.indexOutOfRange 0 0) := by
      induction pre with
      | nil => intro buf; exact loop_nil_group n buf post
      | cons g gs ih =>
        intro buf
        cases g with
        | nil => exact loop_nil_group n buf _
        | cons lch rest => rw [List.cons_append, loop_cons]; exact ih _
    simp only [generatePlaylist, hloop]
  · simp [GetM3U8, httpNewRequest, HttpClient.Do, jsonUnmarshal, decodeLiveChannels,
      decodeFields, LiveChannels.setField, fieldMatches, decodeSlice, decodeElems,
      generatePlaylist, generatePlaylist.loop, Except.map]

/-- C5: in the playlist of a catalog without empty groups, the text rendered
before a group is followed by that group's metadata line; with a registry entry
for the first variant's issue id the line carries the entry's tvg-id, tvg-name,
logo, group and name, without one it carries empty fields and the upstream name.
The registry entry 42/Example/ex1/News with the upstream variant 42/Upstream
Example renders the line of the specification's scenario. -/
theorem generatePlaylist_metadata_line (n : Client) (pre post : List (List LiveChannel))
    (lch : LiveChannel) (rest : List LiveChannel)
    (hpre : ∀ g ∈ pre, g ≠ []) (hpost : ∀ g ∈ post, g ≠ []) :
    (∃ p s line : String,
      generatePlaylist n ⟨pre⟩ = .ok (p, none) ∧
      generatePlaylist n ⟨pre ++ (lch :: rest) :: post⟩ = .ok (p ++ line ++ "\n" ++ s, none) ∧
      (∀ val, n.tvChan lch.IssueID = some val →
        line = "#EXTINF:-1 tvg-id=\"" ++ val.TvgID ++ "\" tvg-name=\"" ++ val.TvgName ++
          "\" tvg-logo=\"" ++ val.Logo ++ "\" group-title=\"" ++ val.Group ++ "\"," ++ val.Name) ∧
      (n.tvChan lch.IssueID = none →
        line = "#EXTINF:-1 tvg-id=\"" ++ "" ++ "\" tvg-name=\"" ++ "" ++
          "\" tvg-logo=\"" ++ "" ++ "\" group-title=\"" ++ "" ++ "\"," ++ lch.IssueName)) ∧
    (∀ (hc : HttpClient) (username password host port : String),
      generatePlaylist
        (NewClient hc username password host port
          ⟨[⟨"42", "Example", "ex1", "", "News", "http://x/l.png"⟩]⟩)
        ⟨[[{ LiveChannel.zero with IssueID := "42", IssueName := "Upstream Example" }]]⟩ =
      .ok ("#EXTM3U\n" ++
        "#EXTINF:-1 tvg-id=\"ex1\" tvg-name=\"\" tvg-logo=\"http://x/l.png\" group-title=\"News\",Example" ++
        "\n" ++ "http://" ++ host ++ ":" ++ port ++ "/playlist.m3u8?ch=42&name=Example" ++ "\n",
        none)) := by
  constructor
  · have hall : ∀ g ∈ pre ++ (lch :: rest) :: post, g ≠ [] := by
      intro g hg
      rcases List.mem_append.mp hg with hg | hg
      · exact hpre g hg
      · rcases List.mem_cons.mp hg with hg | hg
        · rw [hg]; exact List.cons_ne_nil _ _
        · exact hpost g hg
    refine ⟨"#EXTM3U\n" ++ String.join ((pre.filterMap List.head?).map (playlistEntry n)),
      urlLine n lch ++ "\n" ++ String.join ((post.filterMap List.head?).map (playlistEntry n)),
      extinfLine n lch, ?_, ?_, ?_, ?_⟩
    · simp only [generatePlaylist, loop_nonempty n pre hpre]
    · simp only [generatePlaylist, loop_nonempty n _ hall]
      simp [List.filterMap_append, join_append, join_cons, playlistEntry, String.append_assoc]
    · intro val hval
      simp only [extinfLine, hval]
    · intro hnone
      simp only [extinfLine, hnone]
      rfl
  · intro hc username password host port
    have hq : QueryEscape "Example" = "Example" := rfl
    have h1 : ("#EXTINF:-1 tvg-id=\"ex1\" tvg-name=\"\" tvg-logo=\"http://x/l.png\" group-title=\"News\",Example" : String) =
        "#EXTINF:-1 tvg-id=\"" ++ "ex1" ++ "\" tvg-name=\"" ++ "" ++ "\" tvg-logo=\"" ++
          "http://x/l.png" ++ "\" group-title=\"" ++ "News" ++ "\"," ++ "Example" := rfl
    have h2 : ("/playlist.m3u8?ch=42&name=Example" : String) =
        "/playlist.m3u8?ch=" ++ "42" ++ "&name=" ++ "Example" := rfl
    have hnl : ("\nhttp://" : String) = "\n" ++ "http://" := rfl
    simp only [generatePlaylist, generatePlaylist.loop, NewClient, LiveChannel.zero,
      List.foldl_cons, List.foldl_nil, List.getElem?_cons_zero, if_true, hq, h1, h2, hnl,
      String.append_assoc]

theorem generatePlaylist_metadata_line_witness :
    ∃ p s line : String,
      generatePlaylist (NewClient ⟨⟨[]⟩, []⟩ "u" "p" "h" "80" ⟨[]⟩) ⟨[]⟩ = .ok (p, none) ∧
      generatePlaylist (NewClient ⟨⟨[]⟩, []⟩ "u" "p" "h" "80" ⟨[]⟩)
        ⟨[] ++ ({ LiveChannel.zero with IssueID := "7", IssueName := "Up" } :: []) :: []⟩ =
        .ok (p ++ line ++ "\n" ++ s, none) ∧
      (∀ val, (NewClient ⟨⟨[]⟩, []⟩ "u" "p" "h" "80" ⟨[]⟩).tvChan
          ({ LiveChannel.zero with IssueID := "7", IssueName := "Up" } : LiveChannel).IssueID = some val →
        line = "#EXTINF:-1 tvg-id=\"" ++ val.TvgID ++ "\" tvg-name=\"" ++ val.TvgName ++
          "\" tvg-logo=\"" ++ val.Logo ++ "\" group-title=\"" ++ val.Group ++ "\"," ++ val.Name) ∧
      ((NewClient ⟨⟨[]⟩, []⟩ "u" "p" "h" "80" ⟨[]⟩).tvChan
          ({ LiveChannel.zero with IssueID := "7", IssueName := "Up" } : LiveChannel).IssueID = none →
        line = "#EXTINF:-1 tvg-id=\"" ++ "" ++ "\" tvg-name=\"" ++ "" ++
          "\" tvg-logo=\"" ++ "" ++ "\" group-title=\"" ++ "" ++ "\"," ++
            ({ LiveChannel.zero with IssueID := "7", IssueName := "Up" } : LiveChannel).IssueName) :=
  (generatePlaylist_metadata_line (NewClient ⟨⟨[]⟩, []⟩ "u" "p" "h" "80" ⟨[]⟩) [] []
    { LiveChannel.zero with IssueID := "7", IssueName := "Up" } []
    (by simp) (by simp)).1

theorem filterMap_head_congr (a b : List (List LiveChannel)) (hlen : a.length = b.length)
    (hfirst : ∀ i (hi : i < a.length) (hj : i < b.length), a[i].head? = b[i].head?) :
    a.filterMap List.head? = b.filterMap List.head? := by
  induction a generalizing b with
  | nil =>
    cases b with
    | nil => rfl
    | cons _ _ => simp at hlen
  | cons g gs ih =>
    cases b with
    | nil => simp at hlen
    | cons g' gs' =>
      have h0 : g.head? = g'.head? := by
        simpa using hfirst 0 (by simp) (by simp)
      have htl : gs.filterMap List.head? = gs'.filterMap List.head? := by
        apply ih gs' (by simpa using hlen)
        intro i hi hj
        simpa using hfirst (i + 1) (by simpa using hi) (by simpa using hj)
      simp only [List.filterMap_cons, h0, htl]

/-- C7: two catalogs with the same number of groups, none of them empty, whose
groups agree pairwise on their first variant are rendered to the same text
under the same client (registry, host and port). -/
theorem generatePlaylist_first_variant_only (n : Client) (a b : List (List LiveChannel))
    (hlen : a.length = b.length)
    (ha : ∀ g ∈ a, g ≠ []) (hb : ∀ g ∈ b, g ≠ [])
    (hfirst : ∀ i (hi : i < a.length) (hj : i < b.length), a[i].head? = b[i].head?) :
    ∃ text : String,
      generatePlaylist n ⟨a⟩ = .ok (text, none) ∧ generatePlaylist n ⟨b⟩ = .ok (text, none) := by
  refine ⟨"#EXTM3U\n" ++ String.join ((a.filterMap List.head?).map (playlistEntry n)), ?_, ?_⟩
  · simp only [generatePlaylist, loop_nonempty n a ha]
  · simp only [generatePlaylist, loop_nonempty n b hb, filterMap_head_congr a b hlen hfirst]

theorem generatePlaylist_first_variant_only_witness :
    ∃ text : String,
      generatePlaylist (NewClient ⟨⟨[]⟩, []⟩ "u" "p" "h" "80" ⟨[]⟩)
        ⟨[[{ LiveChannel.zero with IssueID := "7", IssueName := "Up" }]]⟩ = .ok (text, none) ∧
      generatePlaylist (NewClient ⟨⟨[]⟩, []⟩ "u" "p" "h" "80" ⟨[]⟩)
        ⟨[[{ LiveChannel.zero with IssueID := "7", IssueName := "Up" },
           { LiveChannel.zero with IssueID := "8", IssueName := "Other" }]]⟩ = .ok (text, none) :=
  generatePlaylist_first_variant_only (NewClient ⟨⟨[]⟩, []⟩ "u" "p" "h" "80" ⟨[]⟩)
    [[{ LiveChannel.zero with IssueID := "7", IssueName := "Up" }]]
    [[{ LiveChannel.zero with IssueID := "7", IssueName := "Up" },
      { LiveChannel.zero with IssueID := "8", IssueName := "Other" }]]
    (by simp) (by simp) (by simp)
    (by
      intro i hi hj
      have hi0 : i = 0 := by simpa using hi
      subst hi0
      rfl)


/-! ## Session lifecycle -/

theorem login_fst_loggedIn (n : Client) (out : HttpOutcome) :
    (login n out).1.loggedIn = n.loggedIn ∧ (login n out).1.lastLogin = n.lastLogin := by
  cases out with
  | doError msg => simp [login, cookiejarNew, httpNewRequest, HttpClient.Do]
  | response cs body =>
    cases body <;> simp [login, cookiejarNew, httpNewRequest, HttpClient.Do]

theorem login_result (n : Client) (out : HttpOutcome) :
    (decide ((login n out).2.2 = none) && (login n out).2.1) = loginSucceeds out := by
  cases out with
  | doError msg => simp [login, cookiejarNew, httpNewRequest, HttpClient.Do, loginSucceeds]
  | response cs body =>
    cases body <;> simp [login, cookiejarNew, httpNewRequest, HttpClient.Do, loginSucceeds]

theorem login_httpClient (n : Client) (out : HttpOutcome) :
    ∃ req : HttpRequest, req.method = "POST" ∧ req.url = LoginUrl ∧
      (login n out).1.httpClient = ⟨⟨responseCookies out⟩, n.httpClient.sent ++ [req]⟩ := by
  cases out with
  | doError msg =>
    exact ⟨_, rfl, rfl, by simp [login, cookiejarNew, httpNewRequest, HttpClient.Do,
      responseCookies, HttpRequest.HeaderAdd]; rfl⟩
  | response cs body =>
    cases body <;>
    exact ⟨_, rfl, rfl, by simp [login, cookiejarNew, httpNewRequest, HttpClient.Do,
      responseCookies, HttpRequest.HeaderAdd]; rfl⟩

theorem checkLogin_of_due (n : Client) (env : LoginEnv)
    (hdue : n.loggedIn = false ∨
      (n.loggedIn = true ∧ env.nowCheck - n.lastLogin > Millisecond * LoginTimeoutMs)) :
    checkLogin n env =
      if loginSucceeds env.response then
        { (login n env.response).1 with loggedIn := true, lastLogin := env.nowStamp }
      else (login n env.response).1 := by
  have hcond : (!n.loggedIn ||
      Time.Before n.lastLogin (Time.Add env.nowCheck (-(Millisecond * LoginTimeoutMs)))) = true := by
    rcases hdue with h | ⟨_, h⟩
    · simp [h]
    · simp only [Bool.or_eq_true, Time.Before, Time.Add, decide_eq_true_eq]
      right
      have h' : n.lastLogin + Millisecond * LoginTimeoutMs < env.nowCheck := by linarith
      linarith
  unfold checkLogin
  rw [if_pos hcond, ← login_result n env.response]

theorem checkLogin_of_fresh (n : Client) (env : LoginEnv)
    (hin : n.loggedIn = true)
    (hfresh : env.nowCheck - n.lastLogin ≤ Millisecond * LoginTimeoutMs) :
    checkLogin n env = n := by
  have hcond : ¬ (!n.loggedIn ||
      Time.Before n.lastLogin (Time.Add env.nowCheck (-(Millisecond * LoginTimeoutMs)))) = true := by
    simp only [hin, Bool.not_true, Bool.false_or, Time.Before, Time.Add, decide_eq_true_eq]
    have h' : env.nowCheck ≤ n.lastLogin + Millisecond * LoginTimeoutMs := by linarith
    linarith
  unfold checkLogin
  rw [if_neg hcond]

/-- C3 (counterexample): a session authenticated at time 0 whose validity window
has expired (clock at 8 h + 1 ns) and whose login attempt is refused (the answer
lacks the success marker) still has `loggedIn = true` after `checkLogin`. -/
theorem checkLogin_failed_relogin_flag_stays_true :
    loggedInAtZero.loggedIn = true ∧
    (28800000000001 : Int) - loggedInAtZero.lastLogin > Millisecond * LoginTimeoutMs ∧
    loginSucceeds loginRefused = false ∧
    (checkLogin loggedInAtZero ⟨28800000000001, loginRefused, 28800000000001⟩).loggedIn = true :=
  ⟨rfl, by decide, by decide, rfl⟩

/-- C3 (amended): whenever `checkLogin` decides to log in (the session was never
authenticated, or it was and its validity window has expired) and the login
attempt fails (transport error, unreadable body, or a body without the success
marker), a login request has been sent and `checkLogin` leaves `loggedIn` and
`lastLogin` as they were: the flag is false after the call for a session that
was never authenticated. -/
theorem checkLogin_failed_login_keeps_flag (n : Client) (env : LoginEnv)
    (hdue : n.loggedIn = false ∨
      (n.loggedIn = true ∧ env.nowCheck - n.lastLogin > Millisecond * LoginTimeoutMs))
    (hfail : loginSucceeds env.response = false) :
    (∃ req : HttpRequest, req.method = "POST" ∧ req.url = LoginUrl ∧
      (checkLogin n env).httpClient.sent = n.httpClient.sent ++ [req]) ∧
    (checkLogin n env).loggedIn = n.loggedIn ∧
    (checkLogin n env).lastLogin = n.lastLogin ∧
    (n.loggedIn = false → (checkLogin n env).loggedIn = false) := by
  rw [checkLogin_of_due n env hdue, hfail]
  simp only [Bool.false_eq_true, if_false]
  obtain ⟨req, hm, hu, hc⟩ := login_httpClient n env.response
  obtain ⟨hl, ht⟩ := login_fst_loggedIn n env.response
  refine ⟨⟨req, hm, hu, by rw [hc]⟩, hl, ht, ?_⟩
  intro h
  rw [hl, h]

theorem checkLogin_failed_login_keeps_flag_witness :
    (∃ req : HttpRequest, req.method = "POST" ∧ req.url = LoginUrl ∧
      (checkLogin freshClient ⟨5, loginRefused, 6⟩).httpClient.sent =
        freshClient.httpClient.sent ++ [req]) ∧
    (checkLogin freshClient ⟨5, loginRefused, 6⟩).loggedIn = freshClient.loggedIn ∧
    (checkLogin freshClient ⟨5, loginRefused, 6⟩).lastLogin = freshClient.lastLogin ∧
    (freshClient.loggedIn = false →
      (checkLogin freshClient ⟨5, loginRefused, 6⟩).loggedIn = false) :=
  checkLogin_failed_login_keeps_flag freshClient ⟨5, loginRefused, 6⟩ (Or.inl rfl) (by decide)

/-- C8 (counterexample): for a session authenticated at time 0 and a clock that
reads exactly the validity window (8 h = 28 800 000 ms after), `checkLogin`
sends no login request and keeps the cookie jar it had. -/
theorem checkLogin_no_login_at_exact_window :
    loggedInAtZero.loggedIn = true ∧
    (28800000000000 : Int) - loggedInAtZero.lastLogin = Millisecond * LoginTimeoutMs ∧
    (checkLogin loggedInAtZero ⟨28800000000000, loginOk, 28800000000000⟩).httpClient.sent =
      loggedInAtZero.httpClient.sent ∧
    (checkLogin loggedInAtZero ⟨28800000000000, loginOk, 28800000000000⟩).httpClient.Jar =
      loggedInAtZero.httpClient.Jar ∧
    loggedInAtZero.httpClient.Jar = ⟨["sid=1"]⟩ :=
  ⟨rfl, by decide, rfl, rfl, rfl⟩

/-- C8 (amended): for every authenticated session with last-authenticated-at `t`
and every clock value `now` with `now - t` strictly greater than the validity
window of 8 hours (`LoginTimeoutMs` = 28 800 000 ms), `checkLogin` sends exactly
one login request, and the cookie jar it leaves is a newly created one holding
only the cookies set by the answer to that request. -/
theorem checkLogin_relogin_after_window (n : Client) (env : LoginEnv)
    (hin : n.loggedIn = true)
    (hexp : env.nowCheck - n.lastLogin > Millisecond * LoginTimeoutMs) :
    Millisecond * LoginTimeoutMs = 8 * 60 * 60 * 1000 * Millisecond ∧
    (∃ req : HttpRequest, req.method = "POST" ∧ req.url = LoginUrl ∧
      (checkLogin n env).httpClient.sent = n.httpClient.sent ++ [req]) ∧
    (checkLogin n env).httpClient.Jar = ⟨responseCookies env.response⟩ := by
  obtain ⟨req, hm, hu, hc⟩ := login_httpClient n env.response
  rw [checkLogin_of_due n env (Or.inr ⟨hin, hexp⟩)]
  refine ⟨by decide, ⟨req, hm, hu, ?_⟩, ?_⟩ <;>
    cases loginSucceeds env.response <;> simp [hc]

theorem checkLogin_relogin_after_window_witness :
    Millisecond * LoginTimeoutMs = 8 * 60 * 60 * 1000 * Millisecond ∧
    (∃ req : HttpRequest, req.method = "POST" ∧ req.url = LoginUrl ∧
      (checkLogin loggedInAtZero ⟨28800000000001, loginRefused, 28800000000002⟩).httpClient.sent =
        loggedInAtZero.httpClient.sent ++ [req]) ∧
    (checkLogin loggedInAtZero ⟨28800000000001, loginRefused, 28800000000002⟩).httpClient.Jar =
      ⟨responseCookies loginRefused⟩ :=
  checkLogin_relogin_after_window loggedInAtZero ⟨28800000000001, loginRefused, 28800000000002⟩
    rfl (by decide)

/-- C9: starting from an unauthenticated session, when a first `checkLogin`
logs in successfully and stores the time `t`, the session is authenticated at
`t` after exactly one login request; every later sequence of `checkLogin` calls
whose clock readings `now` satisfy `now - t` less than the 8-hour validity window
leaves the whole client (flag, timestamp, cookie jar, requests sent) unchanged,
so the two calls in succession have sent exactly one login request. -/
theorem checkLogin_within_window_is_noop (n : Client) (first : LoginEnv) (later : List LoginEnv)
    (hout : n.loggedIn = false)
    (hok : loginSucceeds first.response = true)
    (hlater : ∀ e ∈ later, e.nowCheck - first.nowStamp < Millisecond * LoginTimeoutMs) :
    (checkLogin n first).loggedIn = true ∧
    (checkLogin n first).lastLogin = first.nowStamp ∧
    (∃ req : HttpRequest, req.method = "POST" ∧ req.url = LoginUrl ∧
      (checkLogin n first).httpClient.sent = n.httpClient.sent ++ [req] ∧
      ∀ e ∈ later, (checkLogin (checkLogin n first) e).httpClient.sent =
        n.httpClient.sent ++ [req]) ∧
    (∀ e ∈ later, checkLogin (checkLogin n first) e = checkLogin n first) ∧
    later.foldl checkLogin (checkLogin n first) = checkLogin n first := by
  have hfirst := checkLogin_of_due n first (Or.inl hout)
  rw [hok, if_pos rfl] at hfirst
  have hflag : (checkLogin n first).loggedIn = true := by rw [hfirst]
  have hstamp : (checkLogin n first).lastLogin = first.nowStamp := by rw [hfirst]
  have hnoop : ∀ e ∈ later, checkLogin (checkLogin n first) e = checkLogin n first := by
    intro e he
    apply checkLogin_of_fresh _ _ hflag
    rw [hstamp]
    exact le_of_lt (hlater e he)
  obtain ⟨req, hm, hu, hc⟩ := login_httpClient n first.response
  have hsent : (checkLogin n first).httpClient.sent = n.httpClient.sent ++ [req] := by
    rw [hfirst]; simp [hc]
  refine ⟨hflag, hstamp, ⟨req, hm, hu, hsent, ?_⟩, hnoop, ?_⟩
  · intro e he
    rw [hnoop e he, hsent]
  · clear hlater
    induction later with
    | nil => rfl
    | cons e es ih =>
      rw [List.foldl_cons, hnoop e (List.mem_cons_self _ _)]
      exact ih (fun e he => hnoop e (List.mem_cons_of_mem _ he))

theorem checkLogin_within_window_is_noop_witness :
    (checkLogin freshClient ⟨0, loginOk, 10⟩).loggedIn = true ∧
    (checkLogin freshClient ⟨0, loginOk, 10⟩).lastLogin = 10 ∧
    (∃ req : HttpRequest, req.method = "POST" ∧ req.url = LoginUrl ∧
      (checkLogin freshClient ⟨0, loginOk, 10⟩).httpClient.sent =
        freshClient.httpClient.sent ++ [req] ∧
      ∀ e ∈ [(⟨20, loginOk, 21⟩ : LoginEnv)],
        (checkLogin (checkLogin freshClient ⟨0, loginOk, 10⟩) e).httpClient.sent =
          freshClient.httpClient.sent ++ [req]) ∧
    (∀ e ∈ [(⟨20, loginOk, 21⟩ : LoginEnv)],
      checkLogin (checkLogin freshClient ⟨0, loginOk, 10⟩) e =
        checkLogin freshClient ⟨0, loginOk, 10⟩) ∧
    [(⟨20, loginOk, 21⟩ : LoginEnv)].foldl checkLogin (checkLogin freshClient ⟨0, loginOk, 10⟩) =
      checkLogin freshClient ⟨0, loginOk, 10⟩ :=
  checkLogin_within_window_is_noop freshClient ⟨0, loginOk, 10⟩ [⟨20, loginOk, 21⟩]
    rfl (by decide)
    (by
      intro e he
      rw [List.mem_singleton.mp he]
      decide)
/-! ## Escaping of the display name -/

theorem utf8EncodeRune_lt (c : Char) : ∀ b ∈ utf8EncodeRune c, b < 256 := by
  have hv : c.toNat < 0x110000 := by
    have := c.valid
    simp only [UInt32.isValidChar, Nat.isValidChar] at this
    show c.val.toNat < 0x110000
    omega
  intro b hb
  unfold utf8EncodeRune at hb
  simp only at hb
  split_ifs at hb <;> simp at hb <;> omega

theorem goBytes_lt (s : String) : ∀ b ∈ goBytes s, b < 256 := by
  intro b hb
  simp only [goBytes, List.mem_flatMap] at hb
  obtain ⟨c, _, hc⟩ := hb
  exact utf8EncodeRune_lt c b hc

theorem upperhex_roundtrip : ∀ i < 16,
    ishex (upperhex i).toNat = true ∧ unhex (upperhex i).toNat = i ∧
      isUnreservedChar (upperhex i) = true ∧ upperhex i ≠ '+' ∧ upperhex i ≠ '%' := by
  decide

theorem ofNat_unreserved : ∀ c < 128, shouldEscape c = false →
    (Char.ofNat c).toNat = c ∧ isUnreservedChar (Char.ofNat c) = true ∧
      Char.ofNat c ≠ '+' ∧ Char.ofNat c ≠ '%' ∧ c ≠ 37 ∧ c ≠ 43 := by
  decide

theorem shouldEscape_of_ge {c : Nat} (h : 128 ≤ c) : shouldEscape c = true := by
  unfold shouldEscape
  rw [if_neg (by omega), if_neg (by omega)]

theorem unescape_escape (bs : List Nat) (h : ∀ b ∈ bs, b < 256) :
    unescape ((escape bs).map Char.toNat) = some bs := by
  induction bs with
  | nil => rfl
  | cons c rest ih =>
    have hc : c < 256 := h c (List.mem_cons_self _ _)
    have ih2 := ih (fun b hb => h b (List.mem_cons_of_mem _ hb))
    unfold escape
    by_cases h32 : c = 32
    · subst h32
      simp only [if_true, List.map_cons]
      have h43 : ('+' : Char).toNat = 43 := rfl
      rw [h43]
      unfold unescape
      rw [if_neg (by decide), if_pos rfl, ih2]
      rfl
    · rw [if_neg h32]
      cases hs : shouldEscape c with
      | true =>
        obtain ⟨hh1, hh2, -⟩ := upperhex_roundtrip (c / 16) (by omega)
        obtain ⟨hl1, hl2, -⟩ := upperhex_roundtrip (c % 16) (by omega)
        simp only [if_true, List.map_cons]
        have h37 : ('%' : Char).toNat = 37 := rfl
        rw [h37]
        unfold unescape
        simp only [if_true, hh1, hl1, hh2, hl2, and_self, ih2, Option.map_some']
        congr 2
        omega
      | false =>
        have hlt : c < 128 := by
          by_contra hge
          rw [shouldEscape_of_ge (by omega)] at hs
          exact Bool.noConfusion hs
        obtain ⟨ht, -, -, -, h37, h43⟩ := ofNat_unreserved c hlt hs
        simp only [Bool.false_eq_true, if_false, List.map_cons, ht]
        unfold unescape
        rw [if_neg h37, if_neg h43, ih2]
        rfl

theorem escape_chars (bs : List Nat) (h : ∀ b ∈ bs, b < 256) :
    (∀ ch ∈ escape bs, isUnreservedChar ch = true ∨ ch = '%' ∨ ch = '+') ∧
      (escape bs).count '+' = bs.count 32 := by
  induction bs with
  | nil => simp [escape]
  | cons c rest ih =>
    have hc : c < 256 := h c (List.mem_cons_self _ _)
    obtain ⟨ih1, ih2⟩ := ih (fun b hb => h b (List.mem_cons_of_mem _ hb))
    unfold escape
    by_cases h32 : c = 32
    · subst h32
      refine ⟨?_, by simp [ih2]⟩
      intro ch hch
      simp only [if_true, List.mem_cons] at hch
      rcases hch with hch | hch
      · exact Or.inr (Or.inr hch)
      · exact ih1 ch hch
    · rw [if_neg h32]
      cases hs : shouldEscape c with
      | true =>
        obtain ⟨-, -, hh3, hh4, -⟩ := upperhex_roundtrip (c / 16) (by omega)
        obtain ⟨-, -, hl3, hl4, -⟩ := upperhex_roundtrip (c % 16) (by omega)
        simp only [if_true]
        refine ⟨?_, ?_⟩
        · intro ch hch
          simp only [List.mem_cons] at hch
          rcases hch with hch | hch | hch | hch
          · exact Or.inr (Or.inl hch)
          · rw [hch]; exact Or.inl hh3
          · rw [hch]; exact Or.inl hl3
          · exact ih1 ch hch
        · rw [List.count_cons_of_ne (by decide), List.count_cons_of_ne (Ne.symm hh4),
            List.count_cons_of_ne (Ne.symm hl4), ih2, List.count_cons_of_ne (Ne.symm h32)]
      | false =>
        have hlt : c < 128 := by
          by_contra hge
          rw [shouldEscape_of_ge (by omega)] at hs
          exact Bool.noConfusion hs
        obtain ⟨-, hu, hplus, -, -, -⟩ := ofNat_unreserved c hlt hs
        simp only [Bool.false_eq_true, if_false]
        refine ⟨?_, ?_⟩
        · intro ch hch
          simp only [List.mem_cons] at hch
          rcases hch with hch | hch
          · rw [hch]; exact Or.inl hu
          · exact ih1 ch hch
        · rw [List.count_cons_of_ne (Ne.symm hplus), ih2, List.count_cons_of_ne (Ne.symm h32)]

/-- C6 (counterexample): for the upstream name `a b` (no registry entry) the
value after `name=` is `a+b`: the space is not a `%XX` escape and the raw
reserved character `+` stands in the URL. -/
theorem generatePlaylist_space_becomes_plus :
    QueryEscape "a b" = "a+b" ∧
    generatePlaylist freshClient
      ⟨[[{ LiveChannel.zero with IssueID := "1", IssueName := "a b" }]]⟩ =
      .ok ("#EXTM3U\n#EXTINF:-1 tvg-id=\"\" tvg-name=\"\" tvg-logo=\"\" group-title=\"\",a b\n" ++
        "http://localhost:8080/playlist.m3u8?ch=1&name=a+b\n", none) :=
  ⟨rfl, rfl⟩

/-- C6 (amended): for every display name, its escaped form consists only of
unreserved characters (ASCII letters, digits, `-`, `_`, `.`, `~`), of `%` and of
`+`, it has exactly one `+` per space of the name (every other byte outside the
unreserved set is a `%XX` escape), and URL-decoding it yields the bytes of the
original name; and this escaped form of the display name is the value that
`generatePlaylist` places after `name=` at the end of a channel's URL line. -/
theorem generatePlaylist_name_query_escaped :
    (∀ name : String,
      (∀ ch ∈ (QueryEscape name).data, isUnreservedChar ch = true ∨ ch = '%' ∨ ch = '+') ∧
      (QueryEscape name).data.count '+' = (goBytes name).count 32 ∧
      QueryUnescape (QueryEscape name) = some (goBytes name)) ∧
    (∀ (n : Client) (lch : LiveChannel) (rest : List LiveChannel),
      ∃ pre : String,
        generatePlaylist n ⟨[lch :: rest]⟩ =
          .ok (pre ++ "&name=" ++ QueryEscape (displayName n lch) ++ "\n", none)) := by
  constructor
  · intro name
    obtain ⟨h1, h2⟩ := escape_chars (goBytes name) (goBytes_lt name)
    exact ⟨h1, h2, unescape_escape (goBytes name) (goBytes_lt name)⟩
  · intro n lch rest
    refine ⟨"#EXTM3U\n" ++ extinfLine n lch ++ "\n" ++ "http://" ++ n.host ++ ":" ++ n.port ++
      "/playlist.m3u8?ch=" ++ lch.IssueID, ?_⟩
    unfold generatePlaylist
    rw [loop_cons]
    simp only [generatePlaylist.loop, playlistEntry, urlLine, String.append_assoc]

/-! ## Decoding of the upstream's answers -/

theorem decodeFields_error_of_mem {σ : Type} (set : σ → String → Json → Except GoError σ)
    (kvs : List (String × Json)) (kv : String × Json) (hmem : kv ∈ kvs)
    (hbad : ∀ cur, ∃ err, set cur kv.1 kv.2 = .error err) (cur : σ) :
    ∃ err, decodeFields set cur kvs = .error err := by
  induction kvs generalizing cur with
  | nil => cases hmem
  | cons x xs ih =>
    unfold decodeFields
    rcases List.mem_cons.mp hmem with hx | hx
    · subst hx
      obtain ⟨err, he⟩ := hbad cur
      exact ⟨err, by rw [he]⟩
    · cases hs : set cur x.1 x.2 with
      | error err => exact ⟨err, rfl⟩
      | ok next => exact ih hx next

theorem decodeFields_skip {σ : Type} (set : σ → String → Json → Except GoError σ)
    (kvs : List (String × Json)) (cur : σ)
    (hskip : ∀ kv ∈ kvs, set cur kv.1 kv.2 = .ok cur) :
    decodeFields set cur kvs = .ok cur := by
  induction kvs with
  | nil => rfl
  | cons x xs ih =>
    unfold decodeFields
    rw [hskip x (List.mem_cons_self _ _)]
    exact ih (fun kv hkv => hskip kv (List.mem_cons_of_mem _ hkv))

theorem decodeElems_error_of_mem {α : Type} (elem : Json → Except GoError α)
    (xs : List Json) (x : Json) (hmem : x ∈ xs) (hbad : ∃ err, elem x = .error err) :
    ∃ err, decodeElems elem xs = .error err := by
  induction xs with
  | nil => cases hmem
  | cons y ys ih =>
    unfold decodeElems
    rcases List.mem_cons.mp hmem with hx | hx
    · subst hx
      obtain ⟨err, he⟩ := hbad
      exact ⟨err, by rw [he]⟩
    · cases hs : elem y with
      | error err => exact ⟨err, rfl⟩
      | ok a =>
        obtain ⟨err, he⟩ := ih hx
        exact ⟨err, by simp only [he]⟩

theorem decodeLiveChannel_error (y : Json) (h : isChannelItem y = false) :
    ∃ err, decodeLiveChannel LiveChannel.zero y = .error err := by
  cases y <;> simp [isChannelItem] at h <;> exact ⟨_, rfl⟩

theorem decodeGroup_error (x : Json) (h : isGroupItem x = false) :
    ∃ err, decodeSlice "[]neterra.LiveChannel" (decodeLiveChannel LiveChannel.zero) x =
      .error err := by
  cases x with
  | arr ys =>
    simp only [isGroupItem, List.all_eq_false] at h
    obtain ⟨y, hy, hbad⟩ := h
    exact decodeElems_error_of_mem _ ys y hy (decodeLiveChannel_error y (by simpa using hbad))
  | null => simp [isGroupItem] at h
  | bool b => exact ⟨_, rfl⟩
  | num l => exact ⟨_, rfl⟩
  | str s => exact ⟨_, rfl⟩
  | obj kvs => exact ⟨_, rfl⟩

theorem decodeGroups_error (v : Json) (h : isGroupsShape v = false) :
    ∃ err, decodeSlice "[][]neterra.LiveChannel"
      (decodeSlice "[]neterra.LiveChannel" (decodeLiveChannel LiveChannel.zero)) v =
      .error err := by
  cases v with
  | arr xs =>
    simp only [isGroupsShape, List.all_eq_false] at h
    obtain ⟨x, hx, hbad⟩ := h
    exact decodeElems_error_of_mem _ xs x hx (decodeGroup_error x (by simpa using hbad))
  | null => simp [isGroupsShape] at h
  | bool b => exact ⟨_, rfl⟩
  | num l => exact ⟨_, rfl⟩
  | str s => exact ⟨_, rfl⟩
  | obj kvs => exact ⟨_, rfl⟩

theorem GetM3U8_of_unmarshal_error (n : Client) (env : LoginEnv) (cookies : List String)
    (data : Body) (h : ∃ err, jsonUnmarshal decodeLiveChannels data ⟨[]⟩ = .error err) :
    ∃ err, (GetM3U8 n env (.response cookies (.ok data))).2 = .ok ("", some err) := by
  obtain ⟨err, he⟩ := h
  exact ⟨.errorf ("Error unmarshaling " ++ data.text ++ " to LiveChannels " ++ err.Error),
    by simp only [GetM3U8, httpNewRequest, HttpClient.Do, he]⟩

/-- C10 (counterexample): the catalog body `{}`, a JSON object without the
`tv_choice_result` field, makes `GetM3U8` return the header line and a nil
error. -/
theorem GetM3U8_object_without_field_gives_header :
    (GetM3U8 freshClient ⟨0, loginOk, 0⟩ (.response [] (.ok ⟨"\x7b\x7d", some (.obj [])⟩))).2 =
      .ok ("#EXTM3U\n", none) :=
  rfl

/-- C10 (amended): `GetM3U8` returns a parse error and the empty string, no
playlist text, for every catalog response body that is not valid JSON, or is
valid JSON whose top level is neither an object nor `null`, or is an object with
a `tv_choice_result` member that is neither `null` nor an array whose items are
`null` or arrays of items that are `null` or objects; for a JSON object without
any `tv_choice_result` member it returns the header line alone and a nil error. -/
theorem GetM3U8_parse_error (n : Client) (env : LoginEnv) (cookies : List String)
    (text : String) :
    (∃ err, (GetM3U8 n env (.response cookies (.ok ⟨text, none⟩))).2 = .ok ("", some err)) ∧
    (∀ j, isStructValue j = false →
      ∃ err, (GetM3U8 n env (.response cookies (.ok ⟨text, some j⟩))).2 = .ok ("", some err)) ∧
    (∀ kvs : List (String × Json),
      (∃ kv ∈ kvs, fieldMatches kv.1 "tv_choice_result" = true ∧ isGroupsShape kv.2 = false) →
      ∃ err, (GetM3U8 n env (.response cookies (.ok ⟨text, some (.obj kvs)⟩))).2 =
        .ok ("", some err)) ∧
    (∀ kvs : List (String × Json),
      (∀ kv ∈ kvs, fieldMatches kv.1 "tv_choice_result" = false) →
      (GetM3U8 n env (.response cookies (.ok ⟨text, some (.obj kvs)⟩))).2 =
        .ok ("#EXTM3U\n", none)) := by
  refine ⟨?_, ?_, ?_, ?_⟩
  · exact GetM3U8_of_unmarshal_error n env cookies _ ⟨_, rfl⟩
  · intro j hj
    apply GetM3U8_of_unmarshal_error
    cases j <;> simp [isStructValue] at hj <;> exact ⟨_, rfl⟩
  · intro kvs ⟨kv, hmem, hkey, hshape⟩
    apply GetM3U8_of_unmarshal_error
    apply decodeFields_error_of_mem LiveChannels.setField kvs kv hmem
    intro cur
    obtain ⟨err, he⟩ := decodeGroups_error kv.2 hshape
    exact ⟨err, by simp only [LiveChannels.setField, hkey, if_true, he]; rfl⟩
  · intro kvs hkeys
    have hdec : jsonUnmarshal decodeLiveChannels ⟨text, some (.obj kvs)⟩ ⟨[]⟩ = .ok ⟨[]⟩ := by
      apply decodeFields_skip
      intro kv hkv
      simp only [LiveChannels.setField, hkeys kv hkv, Bool.false_eq_true, if_false]
    simp only [GetM3U8, httpNewRequest, HttpClient.Do, hdec]
    rfl

/-- C2 (counterexample): for the stream-resolution bodies `{}` (no `play_link`)
and `{"play_link":""}`, `GetStream` returns the empty URL with a nil error, and
the handler redirects to that empty destination. -/
theorem GetStream_empty_link_without_error :
    (GetStream freshClient "42" ⟨0, loginOk, 0⟩
      (.response [] (.ok ⟨"\x7b\x7d", some (.obj [])⟩))).2 = ("", none) ∧
    (GetStream freshClient "42" ⟨0, loginOk, 0⟩
      (.response [] (.ok ⟨"\x7b\"play_link\":\"\"\x7d", some (.obj [("play_link", .str "")])⟩))).2 =
        ("", none) ∧
    (playlistHandler freshClient (some ["42"]) (some ["Example"]) ⟨0, loginOk, 0⟩
      (.response [] (.ok ⟨"\x7b\x7d", some (.obj [])⟩))).2 =
        .ok ⟨[("Content-Type", "application/x-mpegURL")], some ("", 301), ""⟩ :=
  ⟨rfl, rfl, rfl⟩

theorem GetStream_of_unmarshal (n : Client) (issueID : String) (env : LoginEnv)
    (cookies : List String) (data : Body) :
    (GetStream n issueID env (.response cookies (.ok data))).2 =
      match jsonUnmarshal decodePlayLink data ⟨""⟩ with
      | .error err => ("", some err)
      | .ok m => (m.Link, none) := by
  simp only [GetStream, httpNewRequest, HttpClient.Do]
  cases jsonUnmarshal decodePlayLink data ⟨""⟩ <;> rfl

/-- C2 (amended): for every upstream stream-resolution response body that parses
as a JSON object in which the `play_link` member is absent, `null` or the empty
string, `GetStream` returns the empty URL together with a nil error, and the
handler issues its permanent redirect to that empty destination; `GetStream`
returns an error when the body is not valid JSON. -/
theorem GetStream_empty_link (n : Client) (issueID name : String) (env : LoginEnv)
    (cookies : List String) (text : String) (kvs : List (String × Json))
    (hlink : ∀ kv ∈ kvs, fieldMatches kv.1 "play_link" = true → kv.2 = .str "" ∨ kv.2 = .null) :
    (GetStream n issueID env (.response cookies (.ok ⟨text, some (.obj kvs)⟩))).2 = ("", none) ∧
    (playlistHandler n (some [issueID]) (some [name]) env
      (.response cookies (.ok ⟨text, some (.obj kvs)⟩))).2 =
        .ok ⟨[("Content-Type", "application/x-mpegURL")], some ("", StatusMovedPermanently), ""⟩ ∧
    (∀ raw : String, (GetStream n issueID env (.response cookies (.ok ⟨raw, none⟩))).2 =
      ("", some .jsonSyntax)) := by
  have hdec : jsonUnmarshal decodePlayLink ⟨text, some (.obj kvs)⟩ ⟨""⟩ = .ok ⟨""⟩ := by
    apply decodeFields_skip
    intro kv hkv
    unfold playLink.setField
    cases hm : fieldMatches kv.1 "play_link" with
    | false => rfl
    | true =>
      rcases hlink kv hkv hm with h | h <;> rw [h] <;> rfl
  have hget : (GetStream n issueID env
      (.response cookies (.ok ⟨text, some (.obj kvs)⟩))).2 = ("", none) := by
    rw [GetStream_of_unmarshal, hdec]
  refine ⟨hget, ?_, ?_⟩
  · unfold playlistHandler
    simp only [Option.isNone_some, Option.getD_some, List.length_singleton, Nat.lt_irrefl,
      decide_False, Bool.or_self, Bool.false_eq_true, if_false]
    rcases hg : GetStream n issueID env
      (.response cookies (.ok ⟨text, some (.obj kvs)⟩)) with ⟨n2, url, err⟩
    rw [hg] at hget
    simp only [Prod.mk.injEq] at hget
    obtain ⟨hu, he⟩ := hget
    subst hu; subst he
    rfl
  · intro raw
    rw [GetStream_of_unmarshal]
    rfl

theorem GetStream_empty_link_witness :
    (GetStream freshClient "42" ⟨0, loginOk, 0⟩
      (.response [] (.ok ⟨"\x7b\"other\":1\x7d", some (.obj [("other", .num "1")])⟩))).2 = ("", none) ∧
    (playlistHandler freshClient (some ["42"]) (some ["Example"]) ⟨0, loginOk, 0⟩
      (.response [] (.ok ⟨"\x7b\"other\":1\x7d", some (.obj [("other", .num "1")])⟩))).2 =
        .ok ⟨[("Content-Type", "application/x-mpegURL")], some ("", StatusMovedPermanently), ""⟩ ∧
    (∀ raw : String, (GetStream freshClient "42" ⟨0, loginOk, 0⟩
      (.response [] (.ok ⟨raw, none⟩))).2 = ("", some .jsonSyntax)) :=
  GetStream_empty_link freshClient "42" "Example" ⟨0, loginOk, 0⟩ [] "\x7b\"other\":1\x7d"
    [("other", .num "1")]
    (by
      intro kv hkv hm
      rw [List.mem_singleton.mp hkv] at hm
      exact absurd hm (by decide))

end Neterra
